import Mathlib

/-!
Shallow embedding of the `run` pipeline of the ms-teams-notifications
GitHub Action (src/main.ts, the variant with `last_sha` two-revision diff
support).  The pipeline reads inputs, shells out to git for the commit
message and (optionally) a two-revision diff, builds an Adaptive Card,
POSTs it to a Teams webhook, and maps the outcome to a CI success/failure
signal.  External effects (process invocations, the HTTP POST, info
logging) are recorded in an explicit trace; the environment supplies the
inputs, the GitHub context, the outputs of the external processes, and the
HTTP response.
-/

namespace Teams

/-- `isPrefList pat s` : `pat` is a prefix of `s` (character lists). -/
def isPrefList : List Char → List Char → Bool
  | [], _ => true
  | _ :: _, [] => false
  | a :: as, b :: bs => a = b && isPrefList as bs

/-- `containsPat pat s` : `pat` occurs as a contiguous substring of `s`. -/
def containsPat (pat : List Char) : List Char → Bool
  | [] => isPrefList pat []
  | c :: rest => isPrefList pat (c :: rest) || containsPat pat (rest)

/-- If `pat` is a prefix of `s`, the remainder of `s` after it. -/
def dropPat : List Char → List Char → Option (List Char)
  | [], s => some s
  | _ :: _, [] => none
  | a :: as, b :: bs => if a = b then dropPat as bs else none

/-- Remove the first (leftmost) occurrence of `pat` from `s`; `none` when
`pat` does not occur.  Mirrors the search order of JavaScript
`String.prototype.replace` with a string pattern and `''` replacement. -/
def removeFirstAux (pat : List Char) : List Char → Option (List Char)
  | [] => dropPat pat []
  | c :: rest =>
    match dropPat pat (c :: rest) with
    | some tail => some tail
    | none => (removeFirstAux pat rest).map (fun l => c :: l)

/-- JavaScript `s.replace(pat, '')` for a plain-string `pat`: remove the
first occurrence of `pat` anywhere in `s`; `s` unchanged when `pat` does
not occur. -/
def replaceFirst (s pat : String) : String :=
  match removeFirstAux pat.data s.data with
  | some l => String.mk l
  | none => s

/-- `branch = ref.replace('refs/heads/', '')` (main.ts). -/
def branchOf (ref : String) : String := replaceFirst ref "refs/heads/"

/-- JavaScript `toLowerCase()` on the ASCII inputs in play: lowercase
every character. -/
def lowercase (s : String) : String := String.mk (s.data.map Char.toLower)

/-- Strip leading and trailing whitespace from a character list. -/
def trimChars (l : List Char) : List Char :=
  ((l.dropWhile Char.isWhitespace).reverse.dropWhile
    Char.isWhitespace).reverse

/-- JavaScript `trim()`. -/
def jsTrim (s : String) : String := String.mk (trimChars s.data)

/-- Split a character list at every newline; the empty list yields one
empty segment, as JavaScript `''.split('\n')` yields `['']`. -/
def splitLinesAux : List Char → List (List Char)
  | [] => [[]]
  | c :: rest =>
    if c = '\n' then [] :: splitLinesAux rest
    else
      match splitLinesAux rest with
      | [] => [[c]]
      | h :: t => (c :: h) :: t

/-- JavaScript `split('\n')`. -/
def splitLines (s : String) : List String :=
  (splitLinesAux s.data).map String.mk

/-- The status switch of main.ts: lowercased status → (cardTitle,
cardIcon, cardDetails), or the thrown `Invalid job status` error.  The
accepted cases are exactly `success`, `failure`, `cancelled`; there is no
`warning` case. -/
def statusCard (status : String) : Except String (String × String × String) :=
  if status = "success" then
    Except.ok ("**Deployment Successful**", "✅",
      "The deployment completed successfully.")
  else if status = "failure" then
    Except.ok ("**Deployment Failed**", "❌",
      "The deployment encountered errors. Please check the logs for details.")
  else if status = "cancelled" then
    Except.ok ("**Deployment Cancelled**", "⚠️",
      "The deployment was cancelled.")
  else Except.error ("Invalid job status: " ++ status)

deriving instance DecidableEq for Except

/-- A fact of the card's FactSet. -/
structure Fact where
  title : String
  value : String
deriving DecidableEq, Repr

/-- An `Action.OpenUrl` entry of the card. -/
structure CardAction where
  id : String
  title : String
  url : String
deriving DecidableEq, Repr

/-- The content of the assembled Adaptive Card that varies with the run:
header text, icon / title / details from the status switch, the
`Ran by ...` line, the two action links, and (for `success` only) the
FactSet pushed onto the body. -/
structure AdaptiveCard where
  headerText : String
  cardIcon : String
  cardTitle : String
  cardDetails : String
  ranBy : String
  actions : List CardAction
  factSet : Option (List Fact)
deriving DecidableEq, Repr

/-- An observable external effect of the pipeline, in order. -/
inductive Effect where
  | execGit (args : List String)
  | fetchPost (url : String) (card : AdaptiveCard)
  | info (msg : String)
deriving DecidableEq, Repr

/-- The run's environment: workflow inputs, GitHub context, what the
external git processes produce, and the webhook's HTTP response.
`gitDiffErr` is the diff process's stderr text: main.ts appends it into a
local `error` variable (lines 42/50) which is never read afterwards.
The `...Throw` fields model the awaited calls rejecting (non-zero git
exit / network-level fetch failure) with the given error message. -/
structure Env where
  statusInput : String
  lastSha : String
  teamsWebhook : String
  owner : String
  repo : String
  ref : String
  actor : String
  commitSha : String
  runId : Nat
  gitLogOut : String
  gitLogThrow : Option String
  gitDiffOut : String
  gitDiffErr : String
  gitDiffThrow : Option String
  fetchThrow : Option String
  respStatus : Nat
  respBody : String
deriving DecidableEq, Repr

/-- `Response.ok` of the fetch API: status in the range 200–299. -/
def responseOk (st : Nat) : Bool := 200 ≤ st && st ≤ 299

/-- `* [file](https://github.com/<repository>/blob/<branch>/<file>)`. -/
def renderFileLink (repository branch file : String) : String :=
  "* [" ++ file ++ "](https://github.com/" ++ repository ++ "/blob/" ++
    branch ++ "/" ++ file ++ ")"

/-- `output.trim().split('\n').slice(0, 10)` then `.filter(file => file)`:
the changed-file paths kept from the diff output. -/
def changedFilesList (out : String) : List String :=
  ((splitLines (jsTrim out)).take 10).filter (fun f => f ≠ "")

/-- The `changedFiles` string built in two-revision mode: each kept path
rendered as a blob link, joined by newlines. -/
def changedFilesOf (repository branch out : String) : String :=
  String.intercalate "\n"
    ((changedFilesList out).map (renderFileLink repository branch))

/-- The FactSet pushed for `success`: commit-message and branch-link
facts, plus a `Files changed:` fact only when `last_sha` was supplied and
`changedFiles` is non-empty (JS truthiness on both strings). -/
def successFacts (repository branch commitMessage lastSha changedFiles :
    String) : List Fact :=
  let base := [⟨"Commit message:", commitMessage⟩,
    ⟨"Branch:", "[" ++ branch ++ "](https://github.com/" ++ repository ++
      "/tree/" ++ branch ++ ")"⟩]
  if lastSha ≠ "" ∧ changedFiles ≠ "" then
    base ++ [⟨"Files changed:", changedFiles⟩]
  else base

/-- The Adaptive Card assembled by main.ts. -/
def buildCard (e : Env) (cardTitle cardIcon cardDetails commitMessage
    changedFiles : String) : AdaptiveCard :=
  let repository := e.owner ++ "/" ++ e.repo
  let branch := branchOf e.ref
  { headerText := "**Deployment Notification** on [" ++ repository ++
      "](https://github.com/" ++ repository ++ ")"
    cardIcon := cardIcon
    cardTitle := cardTitle
    cardDetails := cardDetails
    ranBy := "Ran by [" ++ e.actor ++ "](https://github.com/" ++
      e.actor ++ ")"
    actions := [⟨"viewStatus", "View Deployment Logs",
        "https://github.com/" ++ repository ++ "/actions/runs/" ++
          toString e.runId⟩,
      ⟨"reviewDiffs", "View commit diffs",
        "https://github.com/" ++ repository ++ "/commit/" ++ e.commitSha⟩]
    factSet :=
      if lowercase e.statusInput = "success" then
        some (successFacts repository branch commitMessage e.lastSha
          changedFiles)
      else none }

/-- Card construction and delivery: the tail of the try block, after the
git invocations have produced `commitMessage` and `changedFiles`. -/
def deliver (e : Env) (trace : List Effect) (commitMessage changedFiles :
    String) : List Effect × Except String Unit :=
  let status := lowercase e.statusInput
  match statusCard status with
  | Except.error msg => (trace, Except.error msg)
  | Except.ok (cardTitle, cardIcon, cardDetails) =>
    let card := buildCard e cardTitle cardIcon cardDetails commitMessage
      changedFiles
    let trace := trace ++ [Effect.fetchPost e.teamsWebhook card]
    match e.fetchThrow with
    | some msg => (trace, Except.error msg)
    | none =>
      if responseOk e.respStatus then
        (trace ++
          [Effect.info "Notification sent to Microsoft Teams successfully."],
          Except.ok ())
      else
        (trace, Except.error ("Failed to send notification. HTTP " ++
          toString e.respStatus ++ ": " ++ e.respBody))

/-- The try block of `run`: commit-message fetch, optional two-revision
diff (its stderr is captured into a variable that is never used), status
switch, card construction, delivery.  Returns the effect trace and either
success or the thrown error's message. -/
def runTry (e : Env) : List Effect × Except String Unit :=
  let repository := e.owner ++ "/" ++ e.repo
  let branch := branchOf e.ref
  let trace : List Effect := [Effect.execGit ["log", "-1", "--pretty=%B"]]
  match e.gitLogThrow with
  | some msg => (trace, Except.error msg)
  | none =>
    let commitMessage := jsTrim e.gitLogOut
    if e.lastSha ≠ "" then
      let trace := trace ++
        [Effect.execGit ["diff", "--name-only", e.lastSha, e.commitSha]]
      match e.gitDiffThrow with
      | some msg => (trace, Except.error msg)
      | none =>
        deliver e trace commitMessage
          (changedFilesOf repository branch e.gitDiffOut)
    else
      deliver e trace commitMessage ""

/-- Outcome of one `run`: the external effects and the CI failure signal
(`none` = the run succeeded, `some msg` = `core.setFailed(msg)`). -/
structure RunResult where
  trace : List Effect
  failed : Option String
deriving DecidableEq, Repr

/-- `run`: the try block wrapped in the top-level catch, which converts a
thrown error into the CI failure signal carrying its message. -/
def run (e : Env) : RunResult :=
  match runTry e with
  | (t, Except.ok _) => ⟨t, none⟩
  | (t, Except.error msg) => ⟨t, some msg⟩

/-- Number of HTTP POST attempts in a trace. -/
def fetchCount (t : List Effect) : Nat :=
  (t.filter (fun ef => match ef with
    | Effect.fetchPost _ _ => true
    | _ => false)).length

/-- The cards sent over HTTP in a trace, in order. -/
def postedCards (t : List Effect) : List AdaptiveCard :=
  t.filterMap (fun ef => match ef with
    | Effect.fetchPost _ c => some c
    | _ => none)

/-- A benign environment for concrete evaluations: all external calls
succeed and the webhook answers 200. -/
def baseEnv : Env :=
  { statusInput := "success"
    lastSha := ""
    teamsWebhook := "https://example.org/hook"
    owner := "Trimud"
    repo := "ms-teams-notifications"
    ref := "refs/heads/main"
    actor := "octocat"
    commitSha := "abc123"
    runId := 42
    gitLogOut := "Fix bug\n"
    gitLogThrow := none
    gitDiffOut := ""
    gitDiffErr := ""
    gitDiffThrow := none
    fetchThrow := none
    respStatus := 200
    respBody := "" }

/-- A run invoked with an unsupported status value. -/
def envInvalid : Env := { baseEnv with statusInput := "Invalid-Value" }

/-- A `success` run in two-revision mode whose diff reports no changed
files. -/
def envEmptyDiff : Env := { baseEnv with lastSha := "mock-sha" }

/-- A `success` run in two-revision mode whose diff process writes a
diagnostic on stderr (and nothing on stdout). -/
def envStderr : Env :=
  { baseEnv with lastSha := "mock-sha", gitDiffErr := "Mock error message\n" }

theorem dropPat_eq_none (pat : List Char) :
    ∀ s : List Char, isPrefList pat s = false → dropPat pat s = none := by
  induction pat with
  | nil => intro s h; simp [isPrefList] at h
  | cons a as ih =>
    intro s h
    cases s with
    | nil => rfl
    | cons b bs =>
      by_cases hab : a = b
      · subst hab
        simp only [isPrefList] at h
        simp at h
        simp [dropPat, ih bs h]
      · simp [dropPat, hab]

theorem removeFirstAux_eq_none (pat : List Char) :
    ∀ s : List Char, containsPat pat s = false → removeFirstAux pat s = none := by
  intro s
  induction s with
  | nil =>
    intro h
    simp only [containsPat] at h
    simp [removeFirstAux, dropPat_eq_none pat [] h]
  | cons c rest ih =>
    intro h
    simp only [containsPat, Bool.or_eq_false_iff] at h
    simp [removeFirstAux, dropPat_eq_none pat (c :: rest) h.1, ih h.2]

theorem replaceFirst_eq_of_not_contains (s pat : String)
    (h : containsPat pat.data s.data = false) : replaceFirst s pat = s := by
  simp [replaceFirst, removeFirstAux_eq_none pat.data s.data h]

/-- C10: the branch name is obtained from the ref by removing the first
occurrence of the substring `refs/heads/` anywhere in the string (not
only as a prefix); any ref not containing `refs/heads/` — for instance
the tag ref `refs/tags/v1` — is used unchanged as the branch. -/
theorem branchOf_replace_first_occurrence :
    (∀ ref : String, containsPat ("refs/heads/".data) ref.data = false →
      branchOf ref = ref)
    ∧ branchOf "refs/heads/main" = "main"
    ∧ branchOf "feature/refs/heads/x" = "feature/x"
    ∧ branchOf "refs/tags/v1" = "refs/tags/v1" := by
  refine ⟨fun ref h => replaceFirst_eq_of_not_contains ref _ h, ?_, ?_, ?_⟩
  · decide
  · decide
  · decide

theorem branchOf_replace_first_occurrence_witness :
    containsPat ("refs/heads/".data) ("refs/tags/v1".data) = false
    ∧ branchOf "refs/tags/v1" = "refs/tags/v1" :=
  ⟨by decide,
    branchOf_replace_first_occurrence.1 "refs/tags/v1" (by decide)⟩

/-- C1: the status switch handles `success`, `failure` and `cancelled`
(case-insensitively, via lowercasing) with the documented (title, icon,
detail) triples, but has no `warning` case: a `warning` status falls into
the default branch and throws `Invalid job status: warning` instead of
producing a "Deployment Warning" card. -/
theorem statusCard_warning_rejected :
    statusCard (lowercase "Warning") =
      Except.error "Invalid job status: warning"
    ∧ statusCard (lowercase "SUCCESS") =
      Except.ok ("**Deployment Successful**", "✅",
        "The deployment completed successfully.")
    ∧ statusCard (lowercase "Failure") =
      Except.ok ("**Deployment Failed**", "❌",
        "The deployment encountered errors. Please check the logs for details.")
    ∧ statusCard (lowercase "cancelled") =
      Except.ok ("**Deployment Cancelled**", "⚠️",
        "The deployment was cancelled.") := by
  refine ⟨?_, ?_, ?_, ?_⟩ <;> decide

theorem statusCard_invalid (s : String) (h1 : s ≠ "success")
    (h2 : s ≠ "failure") (h3 : s ≠ "cancelled") :
    statusCard s = Except.error ("Invalid job status: " ++ s) := by
  simp [statusCard, h1, h2, h3]

/-- C2: when the lowercased status input is not one of the accepted
values, the run ends with the CI failure signal carrying exactly
`Invalid job status: <lowercased value>`, and no HTTP POST to the webhook
occurs in that run. -/
theorem invalid_status_fails_without_post (e : Env)
    (hlog : e.gitLogThrow = none) (hdiff : e.gitDiffThrow = none)
    (hbad : lowercase e.statusInput ∉
      (["success", "failure", "cancelled"] : List String)) :
    (run e).failed = some ("Invalid job status: " ++ lowercase e.statusInput)
    ∧ fetchCount (run e).trace = 0 := by
  simp only [List.mem_cons, List.not_mem_nil, or_false, not_or] at hbad
  obtain ⟨h1, h2, h3⟩ := hbad
  have hsc := statusCard_invalid _ h1 h2 h3
  by_cases hs : e.lastSha = "" <;>
    simp [run, runTry, deliver, hlog, hdiff, hs, hsc, fetchCount]

theorem invalid_status_fails_without_post_witness :
    (run envInvalid).failed =
      some ("Invalid job status: " ++ lowercase envInvalid.statusInput)
    ∧ fetchCount (run envInvalid).trace = 0 :=
  invalid_status_fails_without_post envInvalid rfl rfl (by decide)

/-- C3 counterexample: on the concrete run with status `invalid-value`,
the pipeline does fail with `Invalid job status: invalid-value`, but an
external git process (the commit-message fetch) has already been invoked
by then — refuting "without having invoked any external process". -/
theorem invalid_status_runs_git_first_cex :
    (run envInvalid).failed = some "Invalid job status: invalid-value"
    ∧ Effect.execGit ["log", "-1", "--pretty=%B"] ∈ (run envInvalid).trace := by
  constructor
  · decide
  · decide

/-- C3 amended: an unsupported status value makes the run fail with
`Invalid job status: <lowercased value>` and no network call is ever
made, but the failure is detected only after the commit-message git
process has run — and, when `last_sha` is supplied, after the
two-revision diff process as well. -/
theorem invalid_status_after_git_no_post (e : Env)
    (hlog : e.gitLogThrow = none) (hdiff : e.gitDiffThrow = none)
    (hbad : lowercase e.statusInput ∉
      (["success", "failure", "cancelled"] : List String)) :
    (run e).failed = some ("Invalid job status: " ++ lowercase e.statusInput)
    ∧ fetchCount (run e).trace = 0
    ∧ Effect.execGit ["log", "-1", "--pretty=%B"] ∈ (run e).trace
    ∧ (e.lastSha ≠ "" →
        Effect.execGit ["diff", "--name-only", e.lastSha, e.commitSha] ∈
          (run e).trace) := by
  simp only [List.mem_cons, List.not_mem_nil, or_false, not_or] at hbad
  obtain ⟨h1, h2, h3⟩ := hbad
  have hsc := statusCard_invalid _ h1 h2 h3
  by_cases hs : e.lastSha = "" <;>
    simp [run, runTry, deliver, hlog, hdiff, hs, hsc, fetchCount]

theorem invalid_status_after_git_no_post_witness :
    (run envInvalid).failed =
      some ("Invalid job status: " ++ lowercase envInvalid.statusInput)
    ∧ fetchCount (run envInvalid).trace = 0
    ∧ Effect.execGit ["log", "-1", "--pretty=%B"] ∈ (run envInvalid).trace
    ∧ (envInvalid.lastSha ≠ "" →
        Effect.execGit
            ["diff", "--name-only", envInvalid.lastSha, envInvalid.commitSha] ∈
          (run envInvalid).trace) :=
  invalid_status_after_git_no_post envInvalid rfl rfl (by decide)

theorem run_trace (e : Env) : (run e).trace = (runTry e).1 := by
  unfold run
  rcases h : runTry e with ⟨t, r⟩
  cases r <;> simp

theorem mem_deliver_of_mem (e : Env) (t : List Effect) (cm cf : String)
    (x : Effect) (h : x ∈ t) : x ∈ (deliver e t cm cf).1 := by
  unfold deliver
  rcases hsc : statusCard (lowercase e.statusInput) with m | ⟨ct, ci, cd⟩ <;>
    rcases hf : e.fetchThrow with m2 | m2 <;>
      by_cases hr : responseOk e.respStatus <;>
        simp [hsc, hf, hr, h]

theorem execGit_mem_deliver (e : Env) (t : List Effect) (cm cf : String)
    (args : List String)
    (h : Effect.execGit args ∈ (deliver e t cm cf).1) :
    Effect.execGit args ∈ t := by
  unfold deliver at h
  rcases hsc : statusCard (lowercase e.statusInput) with m | ⟨ct, ci, cd⟩ <;>
    rcases hf : e.fetchThrow with m2 | m2 <;>
      by_cases hr : responseOk e.respStatus <;>
        simp [hsc, hf, hr] at h <;> simp [h]

/-- C4: the two-revision diff process `git diff --name-only <last_sha>
<sha>` is invoked exactly when the optional `last_sha` input is
non-empty — when `last_sha` is omitted no diff invocation is made at
all — and the changed-file list kept from its output is the first 10
reported lines (then stripped of empties), hence never more than 10
entries. -/
theorem last_sha_controls_diff_mode (e : Env) (hlog : e.gitLogThrow = none) :
    (e.lastSha ≠ "" →
      Effect.execGit ["diff", "--name-only", e.lastSha, e.commitSha] ∈
        (run e).trace)
    ∧ (e.lastSha = "" → ∀ args : List String,
        Effect.execGit ("diff" :: args) ∉ (run e).trace)
    ∧ (∀ out : String,
        changedFilesList out =
          ((splitLines (jsTrim out)).take 10).filter (fun f => f ≠ "")
        ∧ (changedFilesList out).length ≤ 10) := by
  refine ⟨?_, ?_, ?_⟩
  · intro hs
    rw [run_trace]
    unfold runTry
    simp only [hlog, if_pos hs]
    rcases hd : e.gitDiffThrow with m | m
    · simp [hd]
      exact mem_deliver_of_mem _ _ _ _ _ (by simp)
    · simp [hd]
  · intro hs args hmem
    rw [run_trace] at hmem
    unfold runTry at hmem
    simp only [hlog] at hmem
    rw [if_neg (by simp [hs])] at hmem
    have := execGit_mem_deliver _ _ _ _ _ hmem
    simp at this
  · intro out
    refine ⟨rfl, ?_⟩
    calc (changedFilesList out).length
        ≤ ((splitLines (jsTrim out)).take 10).length :=
          List.length_filter_le _ _
      _ ≤ 10 := by simp [List.length_take]

theorem last_sha_controls_diff_mode_witness :
    (envEmptyDiff.lastSha ≠ "" →
      Effect.execGit
          ["diff", "--name-only", envEmptyDiff.lastSha, envEmptyDiff.commitSha] ∈
        (run envEmptyDiff).trace)
    ∧ (envEmptyDiff.lastSha = "" → ∀ args : List String,
        Effect.execGit ("diff" :: args) ∉ (run envEmptyDiff).trace)
    ∧ (∀ out : String,
        changedFilesList out =
          ((splitLines (jsTrim out)).take 10).filter (fun f => f ≠ "")
        ∧ (changedFilesList out).length ≤ 10) :=
  last_sha_controls_diff_mode envEmptyDiff rfl

/-- C5: on a `success` run in two-revision mode whose diff reports no
changed files, the posted card's fact set contains only the
commit-message and branch facts: the changed-files fact is omitted
entirely rather than rendered as "No files changed.". -/
theorem empty_diff_files_fact_omitted :
    envEmptyDiff.lastSha ≠ ""
    ∧ lowercase envEmptyDiff.statusInput = "success"
    ∧ (run envEmptyDiff).failed = none
    ∧ (postedCards (run envEmptyDiff).trace).map (fun c => c.factSet) =
      [some [⟨"Commit message:", "Fix bug"⟩,
        ⟨"Branch:",
          "[main](https://github.com/Trimud/ms-teams-notifications/tree/main)"⟩]] := by
  refine ⟨by decide, by decide, by decide, by decide⟩

/-- C8: in two-revision mode, non-empty diagnostic text on the diff
process's stderr is captured into a variable that is never read: the run
ignores it, builds the card, performs the POST and succeeds, instead of
failing with the diagnostic text. -/
theorem diff_stderr_not_surfaced :
    envStderr.gitDiffErr = "Mock error message\n"
    ∧ Effect.execGit ["diff", "--name-only", "mock-sha", "abc123"] ∈
      (run envStderr).trace
    ∧ (run envStderr).failed = none
    ∧ fetchCount (run envStderr).trace = 1 := by
  refine ⟨by decide, by decide, by decide, by decide⟩

theorem successFacts_shape (repository branch cm ls cf : String) :
    ∃ rest, successFacts repository branch cm ls cf =
      ⟨"Commit message:", cm⟩ ::
      ⟨"Branch:", "[" ++ branch ++ "](https://github.com/" ++ repository ++
        "/tree/" ++ branch ++ ")"⟩ :: rest := by
  unfold successFacts
  by_cases h : ls ≠ "" ∧ cf ≠ "" <;> simp [h]

theorem fetchPost_mem_deliver (e : Env) (t : List Effect)
    (cm cf ct ci cd : String)
    (hsc : statusCard (lowercase e.statusInput) = Except.ok (ct, ci, cd)) :
    Effect.fetchPost e.teamsWebhook (buildCard e ct ci cd cm cf) ∈
      (deliver e t cm cf).1 := by
  unfold deliver
  rcases hf : e.fetchThrow with m | m <;>
    by_cases hr : responseOk e.respStatus <;>
      simp [hsc, hf, hr]

/-- C6: every `success` run that reaches card construction posts a card
whose fact set starts with the commit-message fact (titled
`Commit message:`) and the branch-link fact, whether or not `last_sha`
was supplied and whatever the diff reported. -/
theorem success_card_fact_list (e : Env)
    (hlog : e.gitLogThrow = none) (hdiff : e.gitDiffThrow = none)
    (hs : lowercase e.statusInput = "success") :
    ∃ c rest, Effect.fetchPost e.teamsWebhook c ∈ (run e).trace
      ∧ c.factSet = some
        (⟨"Commit message:", jsTrim e.gitLogOut⟩ ::
         ⟨"Branch:", "[" ++ branchOf e.ref ++ "](https://github.com/" ++
           (e.owner ++ "/" ++ e.repo) ++ "/tree/" ++ branchOf e.ref ++
           ")"⟩ :: rest) := by
  have hsc : statusCard (lowercase e.statusInput) =
      Except.ok ("**Deployment Successful**", "✅",
        "The deployment completed successfully.") := by
    rw [hs]; decide
  rw [run_trace]
  unfold runTry
  simp only [hlog]
  by_cases hls : e.lastSha = ""
  · rw [if_neg (by simp [hls])]
    obtain ⟨rest, hrest⟩ := successFacts_shape (e.owner ++ "/" ++ e.repo)
      (branchOf e.ref) (jsTrim e.gitLogOut) e.lastSha ""
    refine ⟨_, rest, fetchPost_mem_deliver e _ _ _ _ _ _ hsc, ?_⟩
    simp [buildCard, hs, hrest]
  · rw [if_pos hls]
    simp only [hdiff]
    obtain ⟨rest, hrest⟩ := successFacts_shape (e.owner ++ "/" ++ e.repo)
      (branchOf e.ref) (jsTrim e.gitLogOut) e.lastSha
      (changedFilesOf (e.owner ++ "/" ++ e.repo) (branchOf e.ref)
        e.gitDiffOut)
    refine ⟨_, rest, fetchPost_mem_deliver e _ _ _ _ _ _ hsc, ?_⟩
    simp [buildCard, hs, hrest]

theorem success_card_fact_list_witness :
    ∃ c rest, Effect.fetchPost baseEnv.teamsWebhook c ∈ (run baseEnv).trace
      ∧ c.factSet = some
        (⟨"Commit message:", jsTrim baseEnv.gitLogOut⟩ ::
         ⟨"Branch:", "[" ++ branchOf baseEnv.ref ++ "](https://github.com/" ++
           (baseEnv.owner ++ "/" ++ baseEnv.repo) ++ "/tree/" ++
           branchOf baseEnv.ref ++ ")"⟩ :: rest) :=
  success_card_fact_list baseEnv rfl rfl (by decide)

/-- C7: a run that reaches delivery attempts exactly one HTTP POST; a
response with status in 200–299 (`ok`) yields no failure signal and the
success confirmation, and any other response fails the run with exactly
`Failed to send notification. HTTP <status>: <body>`. -/
theorem delivery_exactly_once (e : Env)
    (hlog : e.gitLogThrow = none) (hdiff : e.gitDiffThrow = none)
    (hfetch : e.fetchThrow = none)
    (hok : lowercase e.statusInput ∈
      (["success", "failure", "cancelled"] : List String)) :
    fetchCount (run e).trace = 1
    ∧ (responseOk e.respStatus = true → (run e).failed = none
        ∧ Effect.info "Notification sent to Microsoft Teams successfully." ∈
          (run e).trace)
    ∧ (responseOk e.respStatus = false → (run e).failed =
        some ("Failed to send notification. HTTP " ++
          toString e.respStatus ++ ": " ++ e.respBody)) := by
  have hsc : ∃ ct ci cd, statusCard (lowercase e.statusInput) =
      Except.ok (ct, ci, cd) := by
    simp only [List.mem_cons, List.not_mem_nil, or_false] at hok
    rcases hok with h | h | h <;> rw [h] <;> exact ⟨_, _, _, rfl⟩
  obtain ⟨ct, ci, cd, hsc⟩ := hsc
  by_cases hls : e.lastSha = "" <;>
    by_cases hr : responseOk e.respStatus <;>
      simp [run, runTry, deliver, hlog, hdiff, hfetch, hls, hsc, hr,
        fetchCount]

theorem delivery_exactly_once_witness :
    fetchCount (run baseEnv).trace = 1
    ∧ (responseOk baseEnv.respStatus = true → (run baseEnv).failed = none
        ∧ Effect.info "Notification sent to Microsoft Teams successfully." ∈
          (run baseEnv).trace)
    ∧ (responseOk baseEnv.respStatus = false → (run baseEnv).failed =
        some ("Failed to send notification. HTTP " ++
          toString baseEnv.respStatus ++ ": " ++ baseEnv.respBody)) :=
  delivery_exactly_once baseEnv rfl rfl rfl (by decide)

theorem fetchCount_deliver (e : Env) (t : List Effect) (cm cf : String) :
    fetchCount (deliver e t cm cf).1 ≤ fetchCount t + 1 := by
  unfold deliver
  rcases hsc : statusCard (lowercase e.statusInput) with m | ⟨ct, ci, cd⟩ <;>
    rcases hf : e.fetchThrow with m2 | m2 <;>
      by_cases hr : responseOk e.respStatus <;>
        simp [hsc, hf, hr, fetchCount, List.filter_append]

/-- C9: whatever the environment, the run never lets an error escape: it
ends either in success (when the try block returned normally) or in the
CI failure signal carrying exactly the thrown error's message; the trace
is the try block's trace and contains at most one POST — nothing is
retried. -/
theorem errors_caught_once (e : Env) :
    ((runTry e).2 = Except.ok () → (run e).failed = none)
    ∧ (∀ m : String, (runTry e).2 = Except.error m →
        (run e).failed = some m)
    ∧ (run e).trace = (runTry e).1
    ∧ fetchCount (run e).trace ≤ 1 := by
  refine ⟨?_, ?_, run_trace e, ?_⟩
  · intro h
    unfold run
    rcases ht : runTry e with ⟨t, r⟩
    rw [ht] at h
    cases r <;> simp_all
  · intro m h
    unfold run
    rcases ht : runTry e with ⟨t, r⟩
    rw [ht] at h
    cases r <;> simp_all
  · rw [run_trace]
    unfold runTry
    rcases hl : e.gitLogThrow with _ | m
    · dsimp only
      by_cases hls : e.lastSha = ""
      · rw [if_neg (by simp [hls])]
        calc fetchCount (deliver e [Effect.execGit ["log", "-1", "--pretty=%B"]]
              (jsTrim e.gitLogOut) "").1
            ≤ fetchCount [Effect.execGit ["log", "-1", "--pretty=%B"]] + 1 :=
              fetchCount_deliver _ _ _ _
          _ ≤ 1 := by simp [fetchCount]
      · rw [if_pos hls]
        rcases hd : e.gitDiffThrow with m2 | m2
        · calc fetchCount (deliver e
                [Effect.execGit ["log", "-1", "--pretty=%B"],
                 Effect.execGit ["diff", "--name-only", e.lastSha, e.commitSha]]
                (jsTrim e.gitLogOut)
                (changedFilesOf (e.owner ++ "/" ++ e.repo) (branchOf e.ref)
                  e.gitDiffOut)).1
              ≤ fetchCount
                  [Effect.execGit ["log", "-1", "--pretty=%B"],
                   Effect.execGit
                     ["diff", "--name-only", e.lastSha, e.commitSha]] + 1 :=
                fetchCount_deliver _ _ _ _
            _ ≤ 1 := by simp [fetchCount]
        · simp [fetchCount]
    · simp [fetchCount]

theorem errors_caught_once_witness :
    (run envInvalid).failed = some "Invalid job status: invalid-value"
    ∧ fetchCount (run envInvalid).trace ≤ 1 :=
  ⟨(errors_caught_once envInvalid).2.1 "Invalid job status: invalid-value"
      (by decide),
    (errors_caught_once envInvalid).2.2.2⟩

end Teams
